import Mathlib

/-!
Verification development for the diff-aware coverage report core:
`coverage/diff.py` (unchanged-block mapping) and `coverage/report.py`
(bounded diff-report renderer).  Python strings are modelled as Lean
`String`s, Python `int` as `Int` (arbitrary precision, can be negative),
fallible operations (subprocess calls, filesystem reads, `int()` parsing,
list-index / unpack errors) as `Option` / `Except`.  The external
collaborators (git subprocess, filesystem, `os.environ`, `hashlib`) are
passed in as explicit function parameters.
-/

set_option maxHeartbeats 1000000
set_option maxRecDepth 4096

/-! ## Python string primitives (structural, kernel-evaluable) -/

/-- One whitespace-run split step used below; Python `str.split()` keeps no
empty tokens. -/
def pyWhitespaceSplit (s : String) : List String :=
  ((s.data.splitOnP Char.isWhitespace).map String.mk).filter (fun t => !(t == ""))

/-- Fuel-driven split of a character list on a (non-empty) separator list,
mirroring Python `str.split(sep)` left-to-right non-overlapping scanning. -/
def splitSepAux (sep : List Char) : Nat → List Char → List Char → List (List Char)
  | 0, cur, _ => [cur.reverse]
  | _ + 1, cur, [] => [cur.reverse]
  | fuel + 1, cur, c :: rest =>
    if sep.isPrefixOf (c :: rest) then
      cur.reverse :: splitSepAux sep fuel [] ((c :: rest).drop sep.length)
    else
      splitSepAux sep fuel (c :: cur) rest

/-- Python `s.split(sep)` for a non-empty separator. -/
def pySplitOn (s : String) (sep : String) : List String :=
  (splitSepAux sep.data (s.data.length + 1) [] s.data).map String.mk

/-- Python `"\n".join(...)` / `sep.join(...)`. -/
def joinWith (sep : String) : List String → String
  | [] => ""
  | [x] => x
  | x :: y :: rest => x ++ sep ++ joinWith sep (y :: rest)

/-- Python `s.split(sep, 1)` (at most one split). -/
def splitMax1 (s : String) (sep : String) : List String :=
  match pySplitOn s sep with
  | [] => []
  | [x] => [x]
  | x :: rest => [x, joinWith sep rest]

/-- Python `s.startswith(pre)`. -/
def pyStartsWith (s pre : String) : Bool :=
  pre.data.isPrefixOf s.data

/-- Python `s.strip()` (strip whitespace from both ends). -/
def pyStrip (s : String) : String :=
  String.mk ((s.data.dropWhile Char.isWhitespace).reverse.dropWhile Char.isWhitespace).reverse

/-- Python `s.rstrip()` (strip trailing whitespace). -/
def pyRstrip (s : String) : String :=
  String.mk (s.data.reverse.dropWhile Char.isWhitespace).reverse

/-- Python `s[:n]` on a string (first `n` characters). -/
def pyTake (s : String) (n : Nat) : String :=
  String.mk (s.data.take n)

/-- Python `str.splitlines()` restricted to `"\n"`-separated text (the form
git produces): a trailing newline contributes no final empty line. -/
def splitlines (s : String) : List String :=
  if s == "" then []
  else
    let parts := pySplitOn s "\n"
    if parts.getLast? == some "" then parts.dropLast else parts

/-- The value of a non-empty list of decimal digits; `none` otherwise. -/
def digitsVal? (cs : List Char) : Option Nat :=
  if cs.isEmpty then none
  else if cs.all Char.isDigit then
    some (cs.foldl (fun a c => a * 10 + (c.toNat - 48)) 0)
  else none

/-- Python `int(s)` on a clean token: optional sign followed by digits;
`none` models the `ValueError`. -/
def pyInt? (s : String) : Option Int :=
  match s.data with
  | '-' :: rest => (digitsVal? rest).map (fun n => -(n : Int))
  | '+' :: rest => (digitsVal? rest).map (fun n => (n : Int))
  | cs => (digitsVal? cs).map (fun n => (n : Int))

/-! ## Embedding of `coverage/diff.py` -/

/-- `parse_range_info` (coverage/diff.py lines 7-16).

    if "0,0" == range_info: size, start = 1, 1
    elif "," in range_info: size, start = map(int, range_info.split(",")); size = abs(size)
    else: size = 1; start = int(range_info)
    return start - 1, size

`none` models the `ValueError` raised by `int()` or by unpacking a split
that does not have exactly two parts. -/
def parse_range_info (range_info : String) : Option (Int × Int) :=
  if range_info == "0,0" then
    some (1 - 1, 1)
  else if range_info.data.contains ',' then
    match pySplitOn range_info "," with
    | [a, b] =>
      match pyInt? a, pyInt? b with
      | some size0, some start => some (start - 1, ((size0.natAbs : Nat) : Int))
      | _, _ => none
    | _ => none
  else
    (pyInt? range_info).map (fun start => (start - 1, 1))

/-- A parsed hunk entry of `changed_ranges`:
`(base_start, base_size, curr_start, curr_size)`. -/
abbrev Hunk := Int × Int × Int × Int

/-- An unchanged block `(base_offset, curr_offset, size)`. -/
abbrev Block := Int × Int × Int

/-- The hunk-walking loop of `compute_unchanged_blocks`
(coverage/diff.py lines 42-55): emit the gap before each hunk when it is
positive, then advance both cursors past the hunk. -/
def hunkBlocks : List Hunk → Int → Int → List Block
  | [], _, _ => []
  | (base_start, base_size, curr_start, curr_size) :: rest, base_offset, curr_offset =>
    let size := base_start - base_offset
    let tail := hunkBlocks rest (base_start + base_size) (curr_start + curr_size)
    if size > 0 then (base_offset, curr_offset, size) :: tail else tail

/-- Python truthiness of the `curr_file` variable (`None` and `""` are
falsy). -/
def pyTruthyFile : Option String → Bool
  | none => false
  | some s => !(s == "")

/-- The path interpolated into `f"{base_branch}:{curr_file}"`: Python
renders `None` as the literal string `"None"`. -/
def gitShowPath : Option String → String
  | none => "None"
  | some s => s

/-- `compute_unchanged_blocks` (coverage/diff.py lines 38-75), the part that
builds the block list for one file section.  `baseContent f` models
`git show base_branch:f` (`none` = `CalledProcessError`, swallowed as empty
content); `currContent f` models reading the working-tree file (`none` =
`FileNotFoundError`, swallowed as empty content).  The final appended block
is `(len(base_file_content), len(curr_file_content), 0)`. -/
def compute_unchanged_blocks (baseContent currContent : String → Option (List String))
    (curr_file : Option String) (changed_ranges : List Hunk) : List Block :=
  let blocks := if pyTruthyFile curr_file then hunkBlocks changed_ranges 0 0 else []
  let base_file_content := (baseContent (gitShowPath curr_file)).getD []
  let curr_file_content :=
    if pyTruthyFile curr_file then (currContent (gitShowPath curr_file)).getD [] else []
  blocks ++ [((base_file_content.length : Int), (curr_file_content.length : Int), 0)]

/-- `zip(*blocks)`: transpose the block list into
`(base_starts, curr_starts, sizes)`. -/
def unzip3 : List Block → (List Int × List Int × List Int)
  | [] => ([], [], [])
  | (a, b, c) :: rest =>
    let t := unzip3 rest
    (a :: t.1, b :: t.2.1, c :: t.2.2)

/-- Python dict assignment `d[k] = v`: update in place (keeping position) or
append a new entry. -/
def dictSet : List (Option String × (List Int × List Int × List Int)) → Option String →
    (List Int × List Int × List Int) → List (Option String × (List Int × List Int × List Int))
  | [], k, v => [(k, v)]
  | (k', v') :: rest, k, v =>
    if k' == k then (k, v) :: rest else (k', v') :: dictSet rest k v

/-- The parser state of `unchanged_blocks`: the accumulated
`file_blocks` dict, the current file and its accumulated hunks. -/
structure DiffState where
  file_blocks : List (Option String × (List Int × List Int × List Int))
  curr_file : Option String
  changed_ranges : List Hunk

/-- One call of the `compute_unchanged_blocks` closure: compute the block
list for the current file and store its transpose under `curr_file`
(`file_blocks[curr_file] = zip(*blocks) if blocks else ([], [], [])`). -/
def flushFile (baseContent currContent : String → Option (List String))
    (st : DiffState) : DiffState :=
  let blocks := compute_unchanged_blocks baseContent currContent st.curr_file st.changed_ranges
  { st with
    file_blocks :=
      dictSet st.file_blocks st.curr_file
        (if blocks.isEmpty then ([], [], []) else unzip3 blocks) }

/-- One iteration of the line loop of `unchanged_blocks`
(coverage/diff.py lines 78-94).  `none` models the uncaught `IndexError` /
`ValueError` on a malformed line. -/
def stepLine (baseContent currContent : String → Option (List String))
    (st : DiffState) (line : String) : Option DiffState :=
  if pyStartsWith line "diff --git" then
    let st' := flushFile baseContent currContent st
    match (pyWhitespaceSplit line).getLast? with
    | none => none
    | some tok =>
      match splitMax1 tok "/" with
      | _ :: f :: _ => some { st' with curr_file := some f, changed_ranges := [] }
      | _ => none
  else if pyStartsWith line "@@" then
    match pySplitOn line "@@" with
    | _ :: seg :: _ =>
      match pySplitOn (pyStrip seg) " " with
      | [base, curr] =>
        match parse_range_info base, parse_range_info curr with
        | some (bs, bsz), some (cs, csz) =>
          some { st with changed_ranges := st.changed_ranges ++ [(bs, bsz, cs, csz)] }
        | _, _ => none
      | _ => none
    | _ => none
  else
    some st

/-- The full line loop. -/
def processDiffLines (baseContent currContent : String → Option (List String)) :
    List String → DiffState → Option DiffState
  | [], st => some st
  | l :: ls, st =>
    match stepLine baseContent currContent st l with
    | none => none
    | some st' => processDiffLines baseContent currContent ls st'

/-- The trailing `if curr_file: compute_unchanged_blocks()` of
`unchanged_blocks`. -/
def finalFlush (baseContent currContent : String → Option (List String))
    (st : DiffState) : DiffState :=
  if pyTruthyFile st.curr_file then flushFile baseContent currContent st else st

/-- `unchanged_blocks` (coverage/diff.py lines 19-100).  `diffOutput` is the
outcome of `subprocess.check_output(["git", "diff", "--unified=0", base])`:
`Except.error e` models a raised `CalledProcessError`, which nothing
catches, so it propagates (`Sum.inl e`).  A malformed diff line raises an
uncaught parse error (`Sum.inr ()`).  On success the `file_blocks` dict is
returned.  (The `functools.lru_cache` memoisation is process state and is
not part of the computed value.) -/
def unchanged_blocks {ε : Type} :
    Except ε String → (String → Option (List String)) → (String → Option (List String)) →
    Except (ε ⊕ Unit) (List (Option String × (List Int × List Int × List Int)))
  | Except.error e, _, _ => Except.error (Sum.inl e)
  | Except.ok out, baseContent, currContent =>
    match processDiffLines baseContent currContent (splitlines out) ⟨[], none, []⟩ with
    | none => Except.error (Sum.inr ())
    | some st => Except.ok (finalFlush baseContent currContent st).file_blocks

/-- Whether an `Except` result is a success. -/
def exceptIsOk {α β : Type} : Except α β → Bool
  | Except.ok _ => true
  | Except.error _ => false

/-- The success condition of `stepLine`, a function of the line alone: the
parsing errors of the line loop never depend on the parser state or on the
content-reading collaborators. -/
def lineOk (line : String) : Bool :=
  if pyStartsWith line "diff --git" then
    match (pyWhitespaceSplit line).getLast? with
    | none => false
    | some tok =>
      match splitMax1 tok "/" with
      | _ :: _ :: _ => true
      | _ => false
  else if pyStartsWith line "@@" then
    match pySplitOn line "@@" with
    | _ :: seg :: _ =>
      match pySplitOn (pyStrip seg) " " with
      | [base, curr] => (parse_range_info base).isSome && (parse_range_info curr).isSome
      | _ => false
    | _ => false
  else true

/-- Hunks sorted ascending and non-overlapping on the base side, starting
from base cursor `bo` (each hunk begins at or after the running cursor and
has non-negative base size). -/
def baseSortedB : Int → List Hunk → Bool
  | _, [] => true
  | bo, (bs, bsz, _, _) :: rest =>
    decide (bo ≤ bs) && decide (0 ≤ bsz) && baseSortedB (bs + bsz) rest

/-- The hunks' current-side gaps agree with their base-side gaps (true of
the hunks of a genuine diff of two files, where the region between two
hunks is the same unchanged text on both sides). -/
def alignedB : Int → Int → List Hunk → Bool
  | _, _, [] => true
  | bo, co, (bs, bsz, cs, csz) :: rest =>
    decide (cs - co = bs - bo) && alignedB (bs + bsz) (cs + csz) rest

/-- The base-side cursor after walking all hunks
(`base_offset = base_start + base_size` of the last hunk). -/
def lastBaseCursor : Int → List Hunk → Int
  | bo, [] => bo
  | _, (bs, bsz, _, _) :: rest => lastBaseCursor (bs + bsz) rest

/-- The current-side cursor after walking all hunks. -/
def lastCurrCursor : Int → List Hunk → Int
  | co, [] => co
  | _, (_, _, cs, csz) :: rest => lastCurrCursor (cs + csz) rest

/-- A content collaborator that reads every path as a file of `n`
(non-blank) lines. -/
def constContent (n : Nat) : String → Option (List String) :=
  fun _ => some (List.replicate n "x")

/-! ## Embedding of `coverage/report.py` -/

/-- A `Missing` entry `{start, end}` with the optional `same_cov` flag
(`end` is a Lean keyword, so the field is named `stop`). -/
structure MissingRange where
  start : Int
  stop : Int
  same_cov : Option Bool

/-- `format_range` (coverage/report.py lines 25-33), used by the text and
markdown renderers. -/
def format_range (r : MissingRange) : String :=
  let s :=
    if r.start = r.stop - 1 then toString (r.start + 1)
    else toString (r.start + 1) ++ "-" ++ toString r.stop
  if r.same_cov = some false then "**" ++ s ++ "**" else s

/-- A value of the per-row `fields` dict built by
`fields = dict(zip(header, values))`: report rows carry strings
(`Name`, `Cover`, ...), ints (`Stmts`, `Miss`, `∆ Miss`, ...) and, under
the `Missing` key, the list of missing ranges. -/
inductive FieldVal where
  | str : String → FieldVal
  | int : Int → FieldVal
  | missing : List MissingRange → FieldVal

/-- Python `str(value)` for a rendered cell.  The `missing` case is never
rendered: every iteration over `fields` filters the `Missing` key out. -/
def fieldStr : FieldVal → String
  | FieldVal.str s => s
  | FieldVal.int i => toString i
  | FieldVal.missing _ => ""

/-- Dict lookup on the ordered `fields` association list. -/
def lookupField : List (String × FieldVal) → String → Option FieldVal
  | [], _ => none
  | (k, v) :: rest, key => if k == key then some v else lookupField rest key

/-- `fields["Name"]`; report rows always carry a string `Name` column. -/
def nameOf (fields : List (String × FieldVal)) : String :=
  match lookupField fields "Name" with
  | some (FieldVal.str s) => s
  | _ => ""

/-- `fields.get("∆ Miss", 0)`; the `∆ Miss` column of a report row is
always an int (`Numbers.n_diff_missing`). -/
def deltaMissVal (fields : List (String × FieldVal)) : Int :=
  match lookupField fields "∆ Miss" with
  | some (FieldVal.int i) => i
  | _ => 0

/-- The `Missing` field of a row, when present; `tabular_report` always
stores `analysis.missing_ranges()` (a list of ranges) there. -/
def missingOf (fields : List (String × FieldVal)) : Option (List MissingRange) :=
  match lookupField fields "Missing" with
  | some (FieldVal.missing ms) => some ms
  | _ => none

/-- Dict assignment `fields[key] = v` for a key already present (`Name`
always is). -/
def setField : List (String × FieldVal) → String → FieldVal → List (String × FieldVal)
  | [], _, _ => []
  | (k, v) :: rest, key, nv =>
    if k == key then (k, nv) :: rest else (k, v) :: setField rest key nv

/-- One report row as `_report_diff` consumes it: the `fields` dict from
`dict(zip(header, values))` plus `fr.source().splitlines()` from the
trailing `FileReporter` element of `values`. -/
structure RowData where
  fields : List (String × FieldVal)
  source : List String

/-- The external collaborators of `_report_diff`: membership of a file in
`unchanged_blocks(self.config.base_revision)`, the optional
`GITHUB_PR_NUMBER` environment variable, and
`hashlib.sha256(...).hexdigest()`. -/
structure RenderParams where
  changedFiles : String → Bool
  prNumber : Option String
  sha256hex : String → String

/-- `nice_range = f"{start}-{end}" if start != end - 1 else str(start)`
(coverage/report.py line 244). -/
def niceRange (m : MissingRange) : String :=
  if m.start ≠ m.stop - 1 then toString m.start ++ "-" ++ toString m.stop
  else toString m.start

/-- `many = 's' if '-' in nice_range else ''` (line 248). -/
def manyOf (m : MissingRange) : String :=
  if (niceRange m).data.contains '-' then "s" else ""

/-- The snippet locator line before link wrapping
(coverage/report.py lines 249-254). -/
def snippetLoc (m : MissingRange) : String :=
  match m.same_cov with
  | none => "Missing coverage at line" ++ manyOf m ++ " " ++ niceRange m
  | some true => "Was already missing at line" ++ manyOf m ++ " " ++ niceRange m
  | some false => "New missing coverage at line" ++ manyOf m ++ " " ++ niceRange m ++ " !"

/-- The half-open index window of integers `[lo, hi)`. -/
def intRange (lo hi : Int) : List Int :=
  (List.range (hi - lo).toNat).map (fun k => lo + (k : Int))

/-- One snippet body line (coverage/report.py lines 269-273): prefix by
whether the line is inside the missing range; a line that is entirely
whitespace (`not snippet_line.strip()`) becomes the placeholder. -/
def snippetLineAt (source : List String) (m : MissingRange) (i : Int) : String :=
  let snippet_line :=
    (if decide (m.start ≤ i) && decide (i < m.stop) then "- " else " ") ++
      source.getD i.toNat ""
  if snippet_line.data.all Char.isWhitespace then "<span/>" else snippet_line

/-- The snippet window `range(max(0, start - 1), min(end + 1, len(source)))`
(lines 265-268). -/
def snippetWindow (source : List String) (m : MissingRange) : List Int :=
  intRange (max 0 (m.start - 1)) (min (m.stop + 1) (source.length : Int))

/-- The `snippet_lines` list of one missing range. -/
def snippetLines (source : List String) (m : MissingRange) : List String :=
  (snippetWindow source m).map (snippetLineAt source m)

/-- `limit = 256 if collapse else 512 if m.get("same_cov") else 1024`
(line 276). -/
def snippetLimit (collapse : Bool) (m : MissingRange) : Nat :=
  if collapse then 256 else if m.same_cov = some true then 512 else 1024

/-- Per-line width truncation `s[:128] + "..." if len(s) > 128 else s`
(line 280). -/
def truncLine (s : String) : String :=
  if s.length > 128 then pyTake s 128 ++ "..." else s

/-- Snippet body assembly and truncation (coverage/report.py lines
275-287): join the lines; if the joined text exceeds the limit, keep
`limit // 128` head lines, an ellipsis line, and `limit // 128` tail
lines, each width-truncated. -/
def snippetBody (snippet_lines : List String) (limit : Nat) : String :=
  let body := joinWith "\n" snippet_lines
  if body.length > limit then
    joinWith "\n"
      (((snippet_lines.take (limit / 128)) ++ ["  ..."] ++
          (snippet_lines.drop (snippet_lines.length - limit / 128))).map truncLine)
  else body

/-- One range's full snippet (locator, optional link wrapping, optional
body) — coverage/report.py lines 241-289. -/
def snippetFor (ps : RenderParams) (short collapse : Bool) (source : List String)
    (filename : String) (changed_file : Bool) (m : MissingRange) : String :=
  let diff_id := ps.sha256hex filename
  let loc := snippetLoc m
  let loc :=
    match ps.prNumber with
    | some pr =>
      if changed_file then
        "<a href=\"" ++ pr ++ "/files#diff-" ++ diff_id ++ "R" ++ toString m.start ++
          "-R" ++ toString m.stop ++ "\">" ++ loc ++ "</a>"
      else loc
    | none => loc
  if short then loc
  else
    loc ++ "<pre lang=\"diff\">" ++
      snippetBody (snippetLines source m) (snippetLimit collapse m) ++ "</pre>"

/-- One `<td>` cell (lines 303-312): left-aligned for `Name`, a `%` suffix
for `Cover`. -/
def rowCell (key value : String) : String :=
  "<td align=" ++ (if key == "Name" then "left" else "right") ++ ">" ++ value ++
    (if key == "Cover" then "%" else "") ++ "</td>"

/-- One `<tr>` body row built from the (possibly updated) fields, skipping
the `Missing` key. -/
def rowLine (fields : List (String × FieldVal)) : String :=
  "<tr>" ++
    String.join ((fields.filter (fun kv => !(kv.1 == "Missing"))).map
      (fun kv => rowCell kv.1 (fieldStr kv.2))) ++ "</tr>"

/-- Processing of one report row (coverage/report.py lines 228-318):
returns the rendered `<tr>` line and the `collapse` flag that routes it to
the primary or the collapsed table. -/
def processRow (ps : RenderParams) (short : Bool) (row : RowData) : String × Bool :=
  let fields := row.fields
  let filename := nameOf fields
  let collapse0 := decide (deltaMissVal fields ≤ 0)
  match missingOf fields with
  | none => (rowLine fields, collapse0)
  | some ms =>
    let collapse := ms.all (fun m => m.same_cov == some true)
    let changed_file := ps.changedFiles filename
    let snippets := ms.map (snippetFor ps short collapse row.source filename changed_file)
    let snippets := if short then snippets.map (fun s => "<li>" ++ s ++ "</li>") else snippets
    let body := String.join snippets
    let fields2 :=
      setField fields "Name"
        (FieldVal.str ("<details><summary>" ++ filename ++ "</summary><p>" ++ body ++
          "</p></details>"))
    (rowLine fields2, collapse)

/-- The body rows routed to the primary ("changed") table, in input
order. -/
def primaryLines (ps : RenderParams) (short : Bool) (rows : List RowData) : List String :=
  ((rows.map (processRow ps short)).filter (fun p => !p.2)).map (fun p => p.1)

/-- The body rows routed to the secondary collapsed table, in input
order. -/
def collapsedLines (ps : RenderParams) (short : Bool) (rows : List RowData) : List String :=
  ((rows.map (processRow ps short)).filter (fun p => p.2)).map (fun p => p.1)

/-- The `<thead>` row (lines 217-223): every header item except `Missing`,
spaces escaped. -/
def headerStr (header : List String) : String :=
  "<tr>" ++
    String.join ((header.filter (fun i => !(i == "Missing"))).map
      (fun item =>
        "<th align=" ++ (if item == "Name" then "left" else "right") ++ ">" ++
          joinWith "&nbsp;" (pySplitOn item " ") ++ "</th>")) ++ "</tr>"

/-- The TOTAL row (lines 320-335). -/
def totalRowLine (header : List String) (total_line : List FieldVal) : String :=
  "<tr>" ++
    String.join (((header.zip total_line).filter (fun kv => !(kv.1 == "Missing"))).map
      (fun kv =>
        let v := fieldStr kv.2
        let insert :=
          if v == "" then v
          else if kv.1 == "Cover" then "<b>" ++ v ++ "%</b>"
          else "<b>" ++ v ++ "</b>"
        "<td align=" ++ (if kv.1 == "Name" then "left" else "right") ++ ">" ++ insert ++
          "</td>")) ++ "</tr>"

/-- The assembled `result` document of one `_report_diff` pass (lines
336-353): the primary table (with the TOTAL row appended when a total line
is given) plus, when any collapsed rows exist, the nested expandable
secondary table. -/
def assembleResult (ps : RenderParams) (header : List String) (rows : List RowData)
    (total_line : List FieldVal) (short : Bool) : String :=
  let lines := primaryLines ps short rows
  let lines := if total_line.isEmpty then lines else lines ++ [totalRowLine header total_line]
  let cls := collapsedLines ps short rows
  let result :=
    "<table><thead>" ++ headerStr header ++ "</thead><tbody>" ++ String.join lines ++
      "</tbody></table>"
  if cls.isEmpty then result
  else
    result ++
      "\n\n<details><summary>Files without new missing coverage</summary>\n<table><thead>" ++
      headerStr header ++ "</thead><tbody>" ++ String.join cls ++ "</tbody></table></details>"

/-- The note written after the short-mode retry (line 362). -/
def omittedNote : String := "\n\n*Snippets were omitted because the report was too large*"

/-- The writes after `self.write(result)` (lines 367-372): a blank line if
any end lines exist, each end line, and a final blank line.  Every
`self.write` r-strips its argument. -/
def endWrites (end_lines : List String) : List String :=
  (if end_lines.isEmpty then [] else [""]) ++ end_lines.map pyRstrip ++ [""]

/-- The writes of a `_report_diff(..., short=True)` call: the condition
`not short and len(result) > 65536 - 1024` is false, so the short document
is emitted as-is, never size-checked. -/
def reportDiffShortCall (ps : RenderParams) (header : List String) (rows : List RowData)
    (total_line : List FieldVal) (end_lines : List String) : List String :=
  [pyRstrip (assembleResult ps header rows total_line true)] ++ endWrites end_lines

/-- The writes of a `_report_diff(..., short=False)` call (lines 355-372):
if the assembled normal document exceeds `65536 - 1024` characters it is
discarded, the same arguments are re-rendered once in short mode, and the
omission note is appended; otherwise the normal document is emitted. -/
def reportDiff (ps : RenderParams) (header : List String) (rows : List RowData)
    (total_line : List FieldVal) (end_lines : List String) : List String :=
  let result := assembleResult ps header rows total_line false
  if result.length > 65536 - 1024 then
    reportDiffShortCall ps header rows total_line end_lines ++ [pyRstrip omittedNote]
  else
    [pyRstrip result] ++ endWrites end_lines

/-! ## Concrete fixtures for witnesses and counterexamples -/

/-- Collaborators with no PR environment, no changed files and a dummy
hash. -/
def psX : RenderParams := ⟨fun _ => false, none, fun _ => ""⟩

/-- The spec's classification example:
`[{1,5,same_cov:true}, {10,12,same_cov:false}]`. -/
def msX : List MissingRange := [⟨1, 5, some true⟩, ⟨10, 12, some false⟩]

/-- A report row named `a.py` carrying `msX` as its `Missing` field. -/
def rowX : RowData :=
  ⟨[("Name", FieldVal.str "a.py"), ("Missing", FieldVal.missing msX)], []⟩

/-- A 60-character line. -/
def line60 : String := "x123456789x123456789x123456789x123456789x123456789x123456789"

/-- Five 60-character lines: joined size 304 > 256. -/
def linesX : List String := List.replicate 5 line60

/-- Sorted, aligned hunks for the tiling witness. -/
def hunksX : List Hunk := [(0, 1, 0, 1), (3, 2, 3, 4)]

/-- A two-line diff output: one file header and one hunk header. -/
def diffOutX : String := "diff --git a/f.py b/f.py\n@@ -1,2 +1,3 @@"

/-- The block map computed from `diffOutX` with all content reads
failing. -/
def mapX : List (Option String × (List Int × List Int × List Int)) :=
  [(none, ([0], [0], [0])), (some "f.py", ([0, 0], [0, 0], [1, 0]))]

/-! ## Theorems -/

/-- Every block emitted by the hunk walk has strictly positive length: the
loop guards the append with `if size > 0`. -/
theorem hunkBlocks_all_pos (rs : List Hunk) : ∀ (bo co : Int),
    (hunkBlocks rs bo co).all (fun b => decide (0 < b.2.2)) = true := by
  induction rs with
  | nil => intro bo co; rfl
  | cons h rest ih =>
    intro bo co
    obtain ⟨bs, bsz, cs, csz⟩ := h
    simp only [hunkBlocks]
    split
    · rename_i hpos
      simp only [List.all_cons, ih, Bool.and_true, decide_eq_true_eq]
      omega
    · exact ih _ _

/-- Claim C1: `parse_range_info` on the two-number token `"5,3"` returns
zero-based start `2` and size `5`, not start `4` and size `3` as the claim
states: the code unpacks `size, start = map(int, range_info.split(","))`,
taking the FIRST number as the size and the SECOND as the start, the
reverse of the unified-diff `start,size` format its own comment examples
(`@@ -2,0 +3,59 @@`) use.  The one-number and `"0,0"` cases match the
claim. -/
theorem parse_range_info_swaps_start_and_size :
    parse_range_info "5,3" = some (2, 5)
    ∧ parse_range_info "0,0" = some (0, 1)
    ∧ parse_range_info "7" = some (6, 1)
    ∧ parse_range_info "5,3" ≠ some (4, 3)
    ∧ parse_range_info "-2,0" = some (-1, 2) := by
  refine ⟨by decide, by decide, by decide, by decide, by decide⟩

/-- Claim C2 counterexample: for a readable 10-line current file and the
hunk `(base_start 3, base_size 3, curr_start 3, curr_size 5)`, the final
emitted block is `(10, 10, 0)` — its length is `0` even though the file is
readable and the claimed length `total - curr_offset = 10 - (3 + 5) = 2`
is nonzero. -/
theorem final_block_not_remainder_cex :
    compute_unchanged_blocks (constContent 10) (constContent 10) (some "a.py")
        [(3, 3, 3, 5)] = [(0, 0, 3), (10, 10, 0)]
    ∧ ((10 : Int) - (3 + 5) ≠ 0)
    ∧ constContent 10 "a.py" ≠ none := by
  refine ⟨by decide, by decide, by decide⟩

/-- Claim C2 (amended): after the hunk walk, exactly one final
`UnchangedBlock` is appended, and it is always
`(len(base_file_content), len(curr_file_content), 0)`: its length is `0`
unconditionally (a missing or unreadable file merely makes the
corresponding offset `0`), while every block emitted before it has
strictly positive length. -/
theorem final_block_always_zero_length
    (bc cc : String → Option (List String)) (cf : Option String) (rs : List Hunk) :
    (compute_unchanged_blocks bc cc cf rs).getLast? =
        some ((((bc (gitShowPath cf)).getD []).length : Int),
          (((if pyTruthyFile cf then (cc (gitShowPath cf)).getD [] else []).length : Int)), 0)
    ∧ (compute_unchanged_blocks bc cc cf rs).dropLast =
        (if pyTruthyFile cf then hunkBlocks rs 0 0 else [])
    ∧ (hunkBlocks rs 0 0).all (fun b => decide (0 < b.2.2)) = true := by
  refine ⟨?_, ?_, hunkBlocks_all_pos rs 0 0⟩
  · simp [compute_unchanged_blocks]
  · simp [compute_unchanged_blocks]

/-- Claim C3 counterexample: one sorted hunk `(0, 1, 0, 1)` on a 5-line
file (both sides): the emitted blocks are `[(5, 5, 0)]`, so block lengths
(`0`) plus current-side hunk sizes (`1`) sum to `1`, not to the current
file's 5-line count (the base side fails identically). -/
theorem tiling_invariant_fails_cex :
    baseSortedB 0 [((0 : Int), (1 : Int), (0 : Int), (1 : Int))] = true
    ∧ compute_unchanged_blocks (constContent 5) (constContent 5) (some "f.py")
        [(0, 1, 0, 1)] = [(5, 5, 0)]
    ∧ ((compute_unchanged_blocks (constContent 5) (constContent 5) (some "f.py")
            [(0, 1, 0, 1)]).map (fun b => b.2.2)).sum
        + ([((0 : Int), (1 : Int), (0 : Int), (1 : Int))].map (fun h => h.2.2.2)).sum
      ≠ (((constContent 5 "f.py").getD []).length : Int) := by
  refine ⟨by decide, by decide, by decide⟩

/-- Base-side partial tiling: for sorted, non-overlapping hunks the block
lengths plus the base-side sizes telescope to the base cursor after the
last hunk. -/
theorem hunkBlocks_tiling_base (rs : List Hunk) : ∀ (bo co : Int),
    baseSortedB bo rs = true →
    ((hunkBlocks rs bo co).map (fun b => b.2.2)).sum + (rs.map (fun h => h.2.1)).sum =
      lastBaseCursor bo rs - bo := by
  induction rs with
  | nil => intro bo co _; simp [hunkBlocks, lastBaseCursor]
  | cons h rest ih =>
    intro bo co hs
    obtain ⟨bs, bsz, cs, csz⟩ := h
    simp only [baseSortedB, Bool.and_eq_true, decide_eq_true_eq] at hs
    obtain ⟨⟨h1, h2⟩, h3⟩ := hs
    have := ih (bs + bsz) (cs + csz) h3
    simp only [hunkBlocks, lastBaseCursor, List.map_cons, List.sum_cons]
    split
    · rename_i hpos
      simp only [List.map_cons, List.sum_cons]
      omega
    · rename_i hpos
      omega

/-- Current-side partial tiling: additionally assuming the hunks' two
sides are aligned (equal gaps), the block lengths plus the current-side
sizes telescope to the current cursor after the last hunk. -/
theorem hunkBlocks_tiling_curr (rs : List Hunk) : ∀ (bo co : Int),
    baseSortedB bo rs = true → alignedB bo co rs = true →
    ((hunkBlocks rs bo co).map (fun b => b.2.2)).sum + (rs.map (fun h => h.2.2.2)).sum =
      lastCurrCursor co rs - co := by
  induction rs with
  | nil => intro bo co _ _; simp [hunkBlocks, lastCurrCursor]
  | cons h rest ih =>
    intro bo co hs ha
    obtain ⟨bs, bsz, cs, csz⟩ := h
    simp only [baseSortedB, Bool.and_eq_true, decide_eq_true_eq] at hs
    obtain ⟨⟨h1, h2⟩, h3⟩ := hs
    simp only [alignedB, Bool.and_eq_true, decide_eq_true_eq] at ha
    obtain ⟨ha1, ha2⟩ := ha
    have := ih (bs + bsz) (cs + csz) h3 ha2
    simp only [hunkBlocks, lastCurrCursor, List.map_cons, List.sum_cons]
    split
    · rename_i hpos
      simp only [List.map_cons, List.sum_cons]
      omega
    · rename_i hpos
      omega

/-- Claim C3 (amended): with hunks sorted ascending on the base side, the
emitted block lengths plus the hunks' base-side sizes sum to the base
cursor after the last hunk (`base_start + base_size` of the last hunk),
not to the base file's total line count; symmetrically, when the hunks'
current-side gaps equal their base-side gaps, block lengths plus
current-side sizes sum to the current cursor after the last hunk.  The
trailing file region beyond the last hunk is left untiled, because the
final appended block always has length 0. -/
theorem tiling_up_to_last_hunk (rs : List Hunk) :
    (baseSortedB 0 rs = true →
      ((hunkBlocks rs 0 0).map (fun b => b.2.2)).sum + (rs.map (fun h => h.2.1)).sum =
        lastBaseCursor 0 rs)
    ∧ (baseSortedB 0 rs = true → alignedB 0 0 rs = true →
      ((hunkBlocks rs 0 0).map (fun b => b.2.2)).sum + (rs.map (fun h => h.2.2.2)).sum =
        lastCurrCursor 0 rs) := by
  constructor
  · intro hs
    have := hunkBlocks_tiling_base rs 0 0 hs
    omega
  · intro hs ha
    have := hunkBlocks_tiling_curr rs 0 0 hs ha
    omega

/-- Witness for `tiling_up_to_last_hunk` at the sorted, aligned hunk list
`hunksX`. -/
theorem tiling_up_to_last_hunk_witness :
    ((hunkBlocks hunksX 0 0).map (fun b => b.2.2)).sum + (hunksX.map (fun h => h.2.1)).sum =
        lastBaseCursor 0 hunksX
    ∧ ((hunkBlocks hunksX 0 0).map (fun b => b.2.2)).sum +
          (hunksX.map (fun h => h.2.2.2)).sum =
        lastCurrCursor 0 hunksX :=
  ⟨(tiling_up_to_last_hunk hunksX).1 (by decide),
   (tiling_up_to_last_hunk hunksX).2 (by decide) (by decide)⟩

/-- Whether `stepLine` succeeds depends only on the line: the state and the
content-reading collaborators never cause a parse error. -/
theorem stepLine_isSome (bc cc : String → Option (List String)) (st : DiffState)
    (line : String) : (stepLine bc cc st line).isSome = lineOk line := by
  unfold stepLine lineOk
  cases hb : pyStartsWith line "diff --git" with
  | true =>
    simp only [if_true]
    cases h : (pyWhitespaceSplit line).getLast? with
    | none => rfl
    | some tok =>
      simp only []
      cases h2 : splitMax1 tok "/" with
      | nil => simp
      | cons x t =>
        cases t with
        | nil => simp
        | cons f t2 => simp
  | false =>
    simp only [Bool.false_eq_true, if_false]
    cases hb2 : pyStartsWith line "@@" with
    | false => simp
    | true =>
      simp only [if_true]
      cases h : pySplitOn line "@@" with
      | nil => rfl
      | cons x t0 =>
        cases t0 with
        | nil => simp
        | cons seg t1 =>
          simp only []
          cases h2 : pySplitOn (pyStrip seg) " " with
          | nil => simp
          | cons a t =>
            cases t with
            | nil => simp
            | cons b t2 =>
              cases t2 with
              | nil =>
                simp only []
                cases hp : parse_range_info a with
                | none => simp
                | some p =>
                  obtain ⟨bs, bsz⟩ := p
                  cases hq : parse_range_info b with
                  | none => simp
                  | some q => obtain ⟨cs, csz⟩ := q; simp
              | cons c t3 => simp

/-- Whether the whole line loop succeeds is `lineOk` of every line. -/
theorem processDiffLines_isSome (bc cc : String → Option (List String)) :
    ∀ (lines : List String) (st : DiffState),
      (processDiffLines bc cc lines st).isSome = lines.all lineOk := by
  intro lines
  induction lines with
  | nil => intro st; rfl
  | cons l ls ih =>
    intro st
    simp only [processDiffLines, List.all_cons]
    have hstep := stepLine_isSome bc cc st l
    cases h : stepLine bc cc st l with
    | none =>
      rw [h] at hstep
      simp only [Option.isSome_none] at hstep
      simp [← hstep]
    | some st' =>
      rw [h] at hstep
      simp only [Option.isSome_some] at hstep
      simp [← hstep, ih st']

/-- Success of `unchanged_blocks` on a given diff text is a function of
that text alone. -/
theorem unchanged_blocks_ok_iff (out : String) (bc cc : String → Option (List String)) :
    exceptIsOk (unchanged_blocks (ε := Unit) (Except.ok out) bc cc) =
      (splitlines out).all lineOk := by
  simp only [unchanged_blocks]
  have hp := processDiffLines_isSome bc cc (splitlines out) ⟨[], none, []⟩
  cases h : processDiffLines bc cc (splitlines out) ⟨[], none, []⟩ with
  | none =>
    rw [h] at hp
    simp only [Option.isSome_none] at hp
    simp [exceptIsOk, ← hp]
  | some st =>
    rw [h] at hp
    simp only [Option.isSome_some] at hp
    simp [exceptIsOk, ← hp]

/-- Claim C6: a failed diff invocation propagates as a hard failure with no
partial result (conjunct 1); whether the computation succeeds is
independent of the per-file content readers, so a failing `git show` or
working-tree read never aborts the map (conjunct 2); and a failing reader
produces exactly the blocks of an empty file on that side (conjuncts 3 and
4). -/
theorem error_handling_split :
    (∀ (ε : Type) (e : ε) (bc cc : String → Option (List String)),
      unchanged_blocks (Except.error e) bc cc = Except.error (Sum.inl e))
    ∧ (∀ (out : String) (bc cc bc' cc' : String → Option (List String)),
      exceptIsOk (unchanged_blocks (ε := Unit) (Except.ok out) bc cc) =
        exceptIsOk (unchanged_blocks (ε := Unit) (Except.ok out) bc' cc'))
    ∧ (∀ (cc : String → Option (List String)) (cf : Option String) (rs : List Hunk),
      compute_unchanged_blocks (fun _ => none) cc cf rs =
        compute_unchanged_blocks (fun _ => some []) cc cf rs)
    ∧ (∀ (bc : String → Option (List String)) (cf : Option String) (rs : List Hunk),
      compute_unchanged_blocks bc (fun _ => none) cf rs =
        compute_unchanged_blocks bc (fun _ => some []) cf rs) := by
  refine ⟨fun ε e bc cc => rfl, fun out bc cc bc' cc' => ?_, ?_, ?_⟩
  · rw [unchanged_blocks_ok_iff, unchanged_blocks_ok_iff]
  · intro cc cf rs; simp [compute_unchanged_blocks]
  · intro bc cf rs; simp [compute_unchanged_blocks]

/-- Dict update: lookup of the updated key. -/
theorem dictSet_lookup_self (k : Option String) (v : List Int × List Int × List Int) :
    ∀ m, List.lookup k (dictSet m k v) = some v := by
  intro m
  induction m with
  | nil => simp [dictSet, List.lookup]
  | cons e rest ih =>
    obtain ⟨k', v'⟩ := e
    simp only [dictSet]
    by_cases hk : k' = k
    · rw [if_pos (by simp [hk])]
      simp [List.lookup]
    · rw [if_neg (by simp [hk])]
      simp only [List.lookup]
      rw [show (k == k') = false by simp [Ne.symm hk]]
      exact ih

/-- Dict update: lookups of other keys are unchanged. -/
theorem dictSet_lookup_other (k k' : Option String) (hk : k ≠ k')
    (v : List Int × List Int × List Int) :
    ∀ m, List.lookup k' (dictSet m k v) = List.lookup k' m := by
  intro m
  induction m with
  | nil =>
    simp only [dictSet, List.lookup]
    rw [show (k' == k) = false by simp [Ne.symm hk]]
  | cons e rest ih =>
    obtain ⟨a, b⟩ := e
    simp only [dictSet]
    by_cases ha : a = k
    · rw [if_pos (by simp [ha])]
      simp only [List.lookup]
      rw [show (k' == k) = false by simp [Ne.symm hk], show (k' == a) = false by
        simp [ha, Ne.symm hk]]
    · rw [if_neg (by simp [ha])]
      simp only [List.lookup]
      cases hka : k' == a with
      | true => rfl
      | false => exact ih

/-- A successful `stepLine` keeps a non-`None` current file non-`None` and
never disturbs the `None` entry of `file_blocks`. -/
theorem stepLine_preserves (bc cc : String → Option (List String)) (st : DiffState)
    (l : String) (st₁ : DiffState) (h : stepLine bc cc st l = some st₁)
    (hc : st.curr_file ≠ none) (v : List Int × List Int × List Int)
    (hv : List.lookup none st.file_blocks = some v) :
    st₁.curr_file ≠ none ∧ List.lookup none st₁.file_blocks = some v := by
  unfold stepLine at h
  split at h
  · -- a "diff --git" line: flush then set the new current file
    split at h
    · exact absurd h (by simp)
    · split at h
      · have h1 := Option.some.inj h
        obtain ⟨g, hg⟩ := Option.ne_none_iff_exists'.mp hc
        constructor
        · rw [← h1]; simp
        · rw [← h1]
          show List.lookup none (dictSet st.file_blocks st.curr_file _) = some v
          rw [hg, dictSet_lookup_other (some g) none (by simp) _ st.file_blocks]
          exact hv
      · exact absurd h (by simp)
  · split at h
    · -- a hunk header: only changed_ranges is touched
      split at h
      · split at h
        · split at h
          · have h1 := Option.some.inj h
            rw [← h1]
            exact ⟨hc, hv⟩
          · exact absurd h (by simp)
        · exact absurd h (by simp)
      · exact absurd h (by simp)
    · -- any other line: the state is unchanged
      have h1 := Option.some.inj h
      rw [← h1]
      exact ⟨hc, hv⟩

/-- Once the current file is set and the `None` entry exists, the rest of
the line loop preserves both. -/
theorem lookup_none_preserved (bc cc : String → Option (List String)) :
    ∀ (lines : List String) (st st' : DiffState),
      st.curr_file ≠ none →
      ∀ (v : List Int × List Int × List Int),
        List.lookup none st.file_blocks = some v →
        processDiffLines bc cc lines st = some st' →
        st'.curr_file ≠ none ∧ List.lookup none st'.file_blocks = some v := by
  intro lines
  induction lines with
  | nil =>
    intro st st' hc v hv hrun
    have h1 := Option.some.inj hrun
    rw [← h1]
    exact ⟨hc, hv⟩
  | cons l ls ih =>
    intro st st' hc v hv hrun
    simp only [processDiffLines] at hrun
    cases hstep : stepLine bc cc st l with
    | none => rw [hstep] at hrun; exact absurd hrun (by simp)
    | some st₁ =>
      rw [hstep] at hrun
      obtain ⟨hc₁, hv₁⟩ := stepLine_preserves bc cc st l st₁ hstep hc v hv
      exact ih st₁ st' hc₁ v hv₁ hrun

/-- Scanning lines with no current file set: the first "diff --git" line
flushes the initial state and unconditionally creates the `None` entry
`([len(base "None")], [0], [0])`, which the rest of the loop preserves. -/
theorem lookup_none_established (bc cc : String → Option (List String)) :
    ∀ (lines : List String) (st st' : DiffState),
      st.curr_file = none →
      (lines.any (fun l => pyStartsWith l "diff --git")) = true →
      processDiffLines bc cc lines st = some st' →
      st'.curr_file ≠ none ∧ List.lookup none st'.file_blocks =
        some ([(((bc "None").getD []).length : Int)], [0], [0]) := by
  intro lines
  induction lines with
  | nil => intro st st' _ hany _; simp at hany
  | cons l ls ih =>
    intro st st' hcf hany hrun
    simp only [processDiffLines] at hrun
    cases hstep : stepLine bc cc st l with
    | none => rw [hstep] at hrun; exact absurd hrun (by simp)
    | some st₁ =>
      rw [hstep] at hrun
      unfold stepLine at hstep
      split at hstep
      · -- the first "diff --git" line: the None entry is created here
        split at hstep
        · exact absurd hstep (by simp)
        · split at hstep
          · have h1 := Option.some.inj hstep
            have hc₁ : st₁.curr_file ≠ none := by rw [← h1]; simp
            have hv₁ : List.lookup none st₁.file_blocks =
                some ([(((bc "None").getD []).length : Int)], [0], [0]) := by
              rw [← h1]
              show List.lookup none (dictSet st.file_blocks st.curr_file _) = _
              rw [hcf, dictSet_lookup_self]
              simp [compute_unchanged_blocks, pyTruthyFile, gitShowPath, unzip3]
            exact lookup_none_preserved bc cc ls st₁ st' hc₁ _ hv₁ hrun
          · exact absurd hstep (by simp)
      · -- not a file header yet: curr_file stays None, recurse
        rename_i hb
        have hany' : ls.any (fun l => pyStartsWith l "diff --git") = true := by
          simp only [List.any_cons, Bool.or_eq_true] at hany
          rcases hany with h' | h'
          · exact absurd h' hb
          · exact h'
        have hcf₁ : st₁.curr_file = none := by
          split at hstep
          · split at hstep
            · split at hstep
              · split at hstep
                · have h1 := Option.some.inj hstep
                  rw [← h1]; exact hcf
                · exact absurd hstep (by simp)
              · exact absurd hstep (by simp)
            · exact absurd hstep (by simp)
          · have h1 := Option.some.inj hstep
            rw [← h1]; exact hcf
        exact ih st₁ st' hcf₁ hany' hrun

/-- Claim C10: any diff output containing a "diff --git" line makes
`unchanged_blocks` return a map with a degenerate entry under the no-file
key `None`: the first file header flushes the initial parser state (no
current file), storing the single trailing zero-length block — whose base
offset is the line count git reports for the literal path `"None"`
(normally 0, since `git show base:None` fails). -/
theorem none_key_degenerate_entry (out : String)
    (bc cc : String → Option (List String))
    (m : List (Option String × (List Int × List Int × List Int)))
    (hdiff : ((splitlines out).any (fun l => pyStartsWith l "diff --git")) = true)
    (hok : unchanged_blocks (ε := Unit) (Except.ok out) bc cc = Except.ok m) :
    List.lookup none m = some ([(((bc "None").getD []).length : Int)], [0], [0]) := by
  simp only [unchanged_blocks] at hok
  cases hp : processDiffLines bc cc (splitlines out) ⟨[], none, []⟩ with
  | none =>
    rw [hp] at hok
    exact absurd hok (by simp)
  | some st =>
    rw [hp] at hok
    have hm : (finalFlush bc cc st).file_blocks = m := by
      injection hok
    obtain ⟨hc, hv⟩ :=
      lookup_none_established bc cc (splitlines out) ⟨[], none, []⟩ st rfl hdiff hp
    rw [← hm]
    unfold finalFlush
    split
    · -- trailing flush of the last file: its key is `some _`, not `None`
      obtain ⟨g, hg⟩ := Option.ne_none_iff_exists'.mp hc
      show List.lookup none (dictSet st.file_blocks st.curr_file _) = _
      rw [hg, dictSet_lookup_other (some g) none (by simp) _ st.file_blocks]
      exact hv
    · exact hv

/-- Witness for `none_key_degenerate_entry` on the concrete two-line diff
`diffOutX` with all content reads failing. -/
theorem none_key_degenerate_entry_witness :
    List.lookup none mapX = some ([(0 : Int)], [0], [0]) :=
  none_key_degenerate_entry diffOutX (fun _ => none) (fun _ => none) mapX (by decide)
    (by rfl)

/-- Claim C4: the renderer discards the assembled normal-mode document and
falls back to one short-mode pass with the omission note appended if and
only if that document exceeds `65536 - 1024` characters; the short-mode
pass emits its document unconditionally, never size-checking it, so
rendering is total. -/
theorem size_ceiling_retry (ps : RenderParams) (header : List String) (rows : List RowData)
    (total_line : List FieldVal) (end_lines : List String) :
    (reportDiff ps header rows total_line end_lines =
        reportDiffShortCall ps header rows total_line end_lines ++ [pyRstrip omittedNote]
      ↔ (assembleResult ps header rows total_line false).length > 65536 - 1024)
    ∧ reportDiffShortCall ps header rows total_line end_lines =
        [pyRstrip (assembleResult ps header rows total_line true)] ++ endWrites end_lines := by
  constructor
  · simp only [reportDiff]
    split
    · rename_i h
      exact ⟨fun _ => h, fun _ => rfl⟩
    · rename_i h
      constructor
      · intro heq
        exfalso
        have hl := congrArg List.length heq
        simp only [reportDiffShortCall, List.length_append, List.length_cons,
          List.length_nil] at hl
        omega
      · intro h2; exact absurd h2 h
  · rfl

/-- Witness for `size_ceiling_retry` (the short-call equation at concrete
arguments). -/
theorem size_ceiling_retry_witness :
    reportDiffShortCall psX [] [] [] [] =
      [pyRstrip (assembleResult psX [] [] [] true)] ++ endWrites [] :=
  (size_ceiling_retry psX [] [] [] []).2

/-- Claim C5: a row carrying a `Missing` field is routed to the secondary
collapsed table iff every one of its ranges has `same_cov == True`
(`collapse = all(m.get("same_cov") for m in fields["Missing"])`); rows
with any `False` or absent flag stay in the primary table; and the two
tables collect exactly the rows whose collapse flag is `true` resp.
`false`, in order. -/
theorem missing_rows_classification (ps : RenderParams) (short : Bool) (row : RowData)
    (ms : List MissingRange) (h : missingOf row.fields = some ms) :
    ((processRow ps short row).2 = true ↔ ∀ m ∈ ms, m.same_cov = some true)
    ∧ (∀ rows : List RowData,
        collapsedLines ps short rows =
          ((rows.map (processRow ps short)).filter (fun p => p.2)).map (fun p => p.1))
    ∧ (∀ rows : List RowData,
        primaryLines ps short rows =
          ((rows.map (processRow ps short)).filter (fun p => !p.2)).map (fun p => p.1)) := by
  refine ⟨?_, fun rows => rfl, fun rows => rfl⟩
  simp only [processRow, h]
  simp [List.all_eq_true]

/-- Witness for `missing_rows_classification` at the spec's classification
example `msX`: the row is routed to the primary table. -/
theorem missing_rows_classification_witness :
    (processRow psX false rowX).2 = true ↔ ∀ m ∈ msX, m.same_cov = some true :=
  (missing_rows_classification psX false rowX msX rfl).1

/-- The snippet line prefixed `"- "` is never entirely whitespace. -/
theorem dash_all_ws (x : String) : (("- " ++ x).data.all Char.isWhitespace) = false := by
  rw [show ("- " ++ x).data = '-' :: ' ' :: x.data from rfl]
  rw [List.all_cons]
  rw [show Char.isWhitespace '-' = false from rfl]
  rfl

/-- The snippet line prefixed `"- "` is never the placeholder. -/
theorem dash_ne_span (x : String) : (("- " ++ x) == "<span/>") = false := by
  rw [beq_eq_false_iff_ne]
  intro h
  have hd := congrArg String.data h
  rw [show ("- " ++ x).data = '-' :: ' ' :: x.data from rfl,
    show ("<span/>" : String).data = ['<', 's', 'p', 'a', 'n', '/', '>'] from rfl] at hd
  simp at hd

/-- The `" "` prefix keeps blankness exactly that of the source line. -/
theorem space_all_ws (x : String) :
    ((" " ++ x).data.all Char.isWhitespace) = (x.data.all Char.isWhitespace) := by
  rw [show (" " ++ x).data = ' ' :: x.data from rfl]
  rw [List.all_cons]
  rw [show Char.isWhitespace ' ' = true from rfl]
  rfl

/-- The snippet line prefixed `" "` is never literally the placeholder. -/
theorem space_ne_span (x : String) : ((" " ++ x) == "<span/>") = false := by
  rw [beq_eq_false_iff_ne]
  intro h
  have hd := congrArg String.data h
  rw [show (" " ++ x).data = ' ' :: x.data from rfl,
    show ("<span/>" : String).data = ['<', 's', 'p', 'a', 'n', '/', '>'] from rfl] at hd
  simp at hd

/-- Case-split form of one snippet body line. -/
theorem snippetLineAt_eq (source : List String) (m : MissingRange) (i : Int) :
    snippetLineAt source m i =
      (if decide (m.start ≤ i) && decide (i < m.stop) then
        (if ("- " ++ source.getD i.toNat "").data.all Char.isWhitespace then "<span/>"
         else "- " ++ source.getD i.toNat "")
       else
        (if (" " ++ source.getD i.toNat "").data.all Char.isWhitespace then "<span/>"
         else " " ++ source.getD i.toNat "")) := by
  cases h : decide (m.start ≤ i) && decide (i < m.stop) with
  | true => simp [snippetLineAt, h]
  | false => simp [snippetLineAt, h]

/-- Claim C8 counterexample: with `source = ["a", "", "b"]` and the
missing range covering exactly the blank middle line (0-based index 1),
the snippet window renders the blank line as `"- "`, not as the
`"<span/>"` placeholder: only blank lines outside the missing range are
replaced. -/
theorem blank_line_in_range_not_replaced_cex :
    snippetLines ["a", "", "b"] ⟨1, 2, none⟩ = [" a", "- ", " b"]
    ∧ ("- " : String) ≠ "<span/>" := by
  refine ⟨by decide, by decide⟩

/-- Claim C8 (amended): the snippet body covers source indices
`max(0, start-1)` up to `min(end+1, len)` (one line before through one
line after the range, clamped); each line is prefixed `"- "` inside the
range and `" "` outside; a line inside the range is never replaced by the
placeholder (its `"- "` prefix is non-blank), while a line outside the
range is replaced by the placeholder exactly when the source line is
entirely whitespace. -/
theorem snippet_window_blank_replacement (source : List String) (m : MissingRange) :
    snippetLines source m = (snippetWindow source m).map (snippetLineAt source m)
    ∧ ((snippetWindow source m).filter
          (fun i => decide (m.start ≤ i) && decide (i < m.stop))).all
        (fun i => !(snippetLineAt source m i == "<span/>")) = true
    ∧ ((snippetWindow source m).filter
          (fun i => !(decide (m.start ≤ i) && decide (i < m.stop)))).all
        (fun i => ((source.getD i.toNat "").data.all Char.isWhitespace) ==
          (snippetLineAt source m i == "<span/>")) = true := by
  refine ⟨rfl, ?_, ?_⟩
  · rw [List.all_eq_true]
    intro i hi
    rw [List.mem_filter] at hi
    obtain ⟨_, hcond⟩ := hi
    simp [snippetLineAt_eq, hcond, dash_all_ws, dash_ne_span]
  · rw [List.all_eq_true]
    intro i hi
    rw [List.mem_filter] at hi
    obtain ⟨_, hcond⟩ := hi
    rw [Bool.not_eq_eq_eq_not, Bool.not_true] at hcond
    cases hx : (source.getD i.toNat "").data.all Char.isWhitespace with
    | true =>
      rw [snippetLineAt_eq, hcond, if_neg Bool.false_ne_true, space_all_ws, hx,
        if_pos rfl]
      rfl
    | false =>
      rw [snippetLineAt_eq, hcond, if_neg Bool.false_ne_true, space_all_ws, hx,
        if_neg Bool.false_ne_true, space_ne_span]
      rfl

/-- Claim C7 counterexample: for the one-line range `{start: 4, end: 5}`
(no `same_cov`), the diff renderer's locator says "line 4" — the raw
`start` field — while `format_range` (the text/markdown renderers) prints
"5" (`start + 1`), so the locator does not name the same human-visible
line numbers. -/
theorem locator_differs_from_format_range_cex :
    snippetLoc ⟨4, 5, none⟩ = "Missing coverage at line 4"
    ∧ format_range ⟨4, 5, none⟩ = "5"
    ∧ niceRange ⟨4, 5, none⟩ ≠ "5" := by
  refine ⟨by decide, by decide, by decide⟩

/-- Claim C7 (amended): the locator names the span using the raw `start`
and `end` fields (`start` alone when `start == end - 1`, else
`start`-`end`), one less than the `start + 1` that `format_range` prints;
the phrasing is "Missing coverage at line(s) …" when `same_cov` is
absent, "Was already missing at line(s) …" when it is true, and
"New missing coverage at line(s) … !" when it is false. -/
theorem locator_phrasing (m : MissingRange) :
    snippetLoc m =
      (match m.same_cov with
       | none => "Missing coverage at line" ++ manyOf m ++ " " ++ niceRange m
       | some true => "Was already missing at line" ++ manyOf m ++ " " ++ niceRange m
       | some false =>
         "New missing coverage at line" ++ manyOf m ++ " " ++ niceRange m ++ " !")
    ∧ niceRange m =
        (if m.start = m.stop - 1 then toString m.start
         else toString m.start ++ "-" ++ toString m.stop)
    ∧ (m.start = m.stop - 1 →
        niceRange m = toString m.start
        ∧ format_range m =
            (if m.same_cov = some false then "**" ++ toString (m.start + 1) ++ "**"
             else toString (m.start + 1))) := by
  refine ⟨rfl, ?_, ?_⟩
  · by_cases h : m.start = m.stop - 1
    · simp [niceRange, h]
    · simp [niceRange, h]
  · intro h
    constructor
    · simp [niceRange, h]
    · simp [format_range, h]

/-- Witness for `locator_phrasing` at the one-line range `{7, 8}` with
`same_cov == true`. -/
theorem locator_phrasing_witness :
    niceRange ⟨7, 8, some true⟩ = toString (7 : Int)
    ∧ format_range ⟨7, 8, some true⟩ =
        (if (some true : Option Bool) = some false then
          "**" ++ toString ((7 : Int) + 1) ++ "**"
         else toString ((7 : Int) + 1)) :=
  (locator_phrasing ⟨7, 8, some true⟩).2.2 (by decide)

/-- Claim C9: whenever the joined snippet body exceeds its budget — 256
for collapsed rows, else 512 for `same_cov`-true ranges, else 1024 — the
emitted body is `limit // 128` head lines, the `"  ..."` ellipsis line and
`limit // 128` tail lines (equally many of each), each passed through the
128-character width truncation; the over-limit body itself is discarded. -/
theorem snippet_truncation (lines : List String) (collapse : Bool) (m : MissingRange) :
    ((joinWith "\n" lines).length > snippetLimit collapse m →
      snippetBody lines (snippetLimit collapse m) =
          joinWith "\n"
            (((lines.take (snippetLimit collapse m / 128)) ++ ["  ..."] ++
                (lines.drop (lines.length - snippetLimit collapse m / 128))).map truncLine)
        ∧ (lines.take (snippetLimit collapse m / 128)).length =
            min (snippetLimit collapse m / 128) lines.length
        ∧ (lines.drop (lines.length - snippetLimit collapse m / 128)).length =
            min (snippetLimit collapse m / 128) lines.length)
    ∧ snippetLimit collapse m =
        (if collapse then 256 else if m.same_cov = some true then 512 else 1024) := by
  refine ⟨fun h => ⟨?_, ?_, ?_⟩, rfl⟩
  · simp only [snippetBody]
    rw [if_pos h]
  · simp [List.length_take]
  · rw [List.length_drop]
    omega

/-- Witness for `snippet_truncation` on five 60-character lines under the
collapsed-row budget 256 (joined length 304). -/
theorem snippet_truncation_witness :
    snippetBody linesX (snippetLimit true ⟨0, 0, none⟩) =
      joinWith "\n"
        (((linesX.take (snippetLimit true ⟨0, 0, none⟩ / 128)) ++ ["  ..."] ++
            (linesX.drop (linesX.length - snippetLimit true ⟨0, 0, none⟩ / 128))).map
          truncLine) :=
  ((snippet_truncation linesX true ⟨0, 0, none⟩).1 (by decide)).1
